import Mathlib

/-!
A shallow embedding of the smallsh shell (src/main.c) and theorems checking
the specification claims against it.  Pure string processing (PID
substitution, tokenization) is embedded as Lean functions on strings and
character lists; the stateful parts (last exit status, last terminating
signal, foreground-only mode) are embedded as explicit state passing, with
the operating-system interactions (fork, waitpid, open) supplied as oracle
parameters describing their outcomes.
-/

namespace Smallsh

/-- MAX_INPUT_SIZE in main.c: size of the fgets input buffer. -/
def MAX_INPUT_SIZE : Nat := 2048

/-- MAX_ARG_SIZE in main.c: the argument vector `char *args[512]` has
512 slots, so the valid indices are 0..511. -/
def MAX_ARG_SIZE : Nat := 512

/-- The three global variables of main.c: `lastExitStatus`,
`lastTerminalSignal` and `foreground_only_mode`. -/
structure ShellState where
  lastExitStatus : Int
  lastTerminalSignal : Int
  foreground_only_mode : Bool
deriving DecidableEq, Repr

/-- The globals at program start: `int lastExitStatus = 0;`,
`int lastTerminalSignal = 0;`, `int foreground_only_mode = 0;`. -/
def initialState : ShellState := ⟨0, 0, false⟩

/-! ### The wait-status macros (glibc semantics, on a nonnegative raw status)

`WTERMSIG(s) = s & 0x7f`, `WEXITSTATUS(s) = (s & 0xff00) >> 8`,
`WIFSIGNALED(s)` holds iff the low seven bits are neither 0 (normal exit)
nor 0x7f (stopped), and `WIFEXITED(s)` iff they are 0. -/

def WTERMSIG (status : Nat) : Nat := status % 128

def WEXITSTATUS (status : Nat) : Nat := status / 256 % 256

def WIFSIGNALED (status : Nat) : Bool :=
  decide (0 < status % 128 ∧ status % 128 < 127)

def WIFEXITED (status : Nat) : Bool := status % 128 == 0

/-! ### The substitution engine: expandShellID

In main.c, `expandShellID` first counts the non-overlapping occurrences of
the marker `$$` with a `strstr` scan, allocates
`strlen(token) + (strlen(SS_PID) - 2) * dollarCount + 1` bytes, and then
runs a write loop: while `strstr` finds another `$$`, it copies the segment
before it and appends the PID string (`strcpy`, which also writes the
terminating NUL).  After the loop nothing more is written, so the returned
string ends right after the last appended PID: the suffix of the token
after its last `$$` is never copied.  The embedding below reproduces
exactly that write loop.  The PID string is a parameter (in the source it
is `getpid()` printed into a 7-byte buffer). -/

/-- One `strstr(s, "$$")` probe: `none` when the marker does not occur,
otherwise the segment before the leftmost occurrence and the remainder
after it. -/
def splitAtMarker : List Char → Option (List Char × List Char)
  | [] => none
  | [_] => none
  | c1 :: c2 :: rest =>
    if c1 = '$' ∧ c2 = '$' then some ([], rest)
    else (splitAtMarker (c2 :: rest)).map (fun p => (c1 :: p.1, p.2))

theorem splitAtMarker_shrinks : ∀ (s pre post : List Char),
    splitAtMarker s = some (pre, post) → post.length + 2 ≤ s.length
  | [], pre, post => by simp [splitAtMarker]
  | [c], pre, post => by simp [splitAtMarker]
  | c1 :: c2 :: rest, pre, post => by
    simp only [splitAtMarker]
    split
    · intro h
      cases h
      simp
    · cases hh : splitAtMarker (c2 :: rest) with
      | none => simp
      | some q =>
        obtain ⟨q1, q2⟩ := q
        intro h
        simp only [Option.map_some'] at h
        cases h
        have := splitAtMarker_shrinks (c2 :: rest) q1 post hh
        simp only [List.length_cons] at this ⊢
        omega

/-- The `dollarCount` scan of expandShellID: the number of non-overlapping
occurrences of `$$`, counted left to right (so four consecutive `$`
characters count as two occurrences). -/
def dollarCount (s : List Char) : Nat :=
  match h : splitAtMarker s with
  | none => 0
  | some (pre, post) => 1 + dollarCount post
termination_by s.length
decreasing_by
  have := splitAtMarker_shrinks s pre post h
  omega

/-- The write loop of expandShellID: while another `$$` is found, copy the
segment before it and append the PID string.  When no further marker is
found the loop stops and nothing else is written, so the result ends there
(the suffix after the last marker is dropped — the final `strcpy`
terminator is the end of the returned C string). -/
def expandLoop (pid : List Char) (s : List Char) : List Char :=
  match h : splitAtMarker s with
  | none => []
  | some (pre, post) => pre ++ pid ++ expandLoop pid post
termination_by s.length
decreasing_by
  have := splitAtMarker_shrinks s pre post h
  omega

/-- `strstr(token, "$$") != NULL`: the guard under which parseInput calls
expandShellID. -/
def hasMarker (s : List Char) : Bool := (splitAtMarker s).isSome

/-- expandShellID from main.c: the string actually returned to the caller,
as produced by the write loop, for a given PID string `pid` (the contents
of `SS_PID`). -/
def expandShellID (pid token : String) : String :=
  String.mk (expandLoop pid.data token.data)

/-! ### Tokenizer/Parser: parseInput

main.c tokenizes the input line with `strtok(input, " ")`, which yields the
maximal nonempty runs between single-space separators.  The scan loop then
treats `<` and `>` as consuming the next token as a redirection path (a
dangling operator assigns the NULL that strtok returns, leaving the path
absent), treats `&` as setting the background flag unless foreground-only
mode is active, and appends every other token to the argument vector,
passing it through expandShellID when it contains `$$`. -/

/-- The token list `strtok(input, " ")` produces for a line. -/
def tokenize (line : String) : List String :=
  (line.splitOn " ").filter (fun t => t ≠ "")

/-- The out parameters of parseInput: the argument vector written so far
(`args[0..i-1]`), the two redirection paths, and the background flag. -/
structure ParseState where
  args : List String
  inputFile : Option String
  outputFile : Option String
  background : Bool
deriving DecidableEq, Repr

/-- What parseInput stores for a non-operator token:
`strstr(token, "$$") != NULL ? expandShellID(token) : token`. -/
def procToken (pid : String) (t : String) : String :=
  if hasMarker t.data then expandShellID pid t else t

/-- The token scan loop of parseInput.  `mode` is the value of the global
`foreground_only_mode` during the scan.  On `<` and `>` the scan stores the
next token (`rest.head?`, which is the NULL of `strtok` when nothing
follows, overwriting any previously stored path) and resumes after it. -/
def parseLoop (mode : Bool) (pid : String) : List String → ParseState → ParseState
  | [], st => st
  | t :: rest, st =>
    if t = "<" then
      parseLoop mode pid rest.tail { st with inputFile := rest.head? }
    else if t = ">" then
      parseLoop mode pid rest.tail { st with outputFile := rest.head? }
    else if t = "&" then
      parseLoop mode pid rest (if mode then st else { st with background := true })
    else
      parseLoop mode pid rest { st with args := st.args ++ [procToken pid t] }
termination_by ts => ts.length
decreasing_by
  all_goals simp only [List.length_cons, List.length_tail]
  all_goals omega

/-- parseInput from main.c, starting from empty out parameters
(`inputFile = outputFile = NULL`, `background = 0`). -/
def parseInput (mode : Bool) (pid : String) (tokens : List String) : ParseState :=
  parseLoop mode pid tokens ⟨[], none, none, false⟩

/-- The number of tokens the scan stores into `args`: parseInput writes
`args[0], ..., args[wordCount-1]` and then the NULL sentinel at index
`wordCount`. -/
def wordCount : List String → Nat
  | [] => 0
  | t :: rest =>
    if t = "<" then wordCount rest.tail
    else if t = ">" then wordCount rest.tail
    else if t = "&" then wordCount rest
    else wordCount rest + 1
termination_by ts => ts.length
decreasing_by
  all_goals simp only [List.length_cons, List.length_tail]
  all_goals omega

/-- All stores into the 512-slot `args` array (including the final NULL
sentinel store `args[i] = NULL`) hit indices below MAX_ARG_SIZE. -/
def parseWritesInBounds (mode : Bool) (pid : String) (tokens : List String) : Prop :=
  (parseInput mode pid tokens).args.length + 1 ≤ MAX_ARG_SIZE

/-! ### Built-in dispatch: handleCommand

handleCommand parses the line and then inspects `args[0]` with `strcmp`.
When every token has been consumed as a `<`/`>` path or `&` marker, the
argument vector is empty and `args[0]` is the NULL sentinel, so
`strcmp(args[0], "exit")` dereferences NULL: that undefined behavior is
modelled by `none`. -/

/-- The dispatch decision handleCommand reaches for a parsed line. -/
inductive Action where
  | runExit
  | runCd (args : List String)
  | runStatus
  | runExternal (args : List String) (inputFile outputFile : Option String)
      (background : Bool)
deriving DecidableEq, Repr

/-- handleCommand from main.c, on the token list of a non-empty
non-comment line.  `none` models the NULL dereference reached when the
parsed argument vector is empty. -/
def handleCommand (mode : Bool) (pid : String) (tokens : List String) :
    Option Action :=
  let p := parseInput mode pid tokens
  match p.args with
  | [] => none
  | a0 :: _ =>
    some (if a0 = "exit" then Action.runExit
          else if a0 = "cd" then Action.runCd p.args
          else if a0 = "status" then Action.runStatus
          else Action.runExternal p.args p.inputFile p.outputFile p.background)

/-! ### The status built-in and the foreground status update -/

/-- What handleStatus prints. -/
inductive StatusReport where
  | exitValue (n : Int)
  | terminatedBySignal (n : Int)
deriving DecidableEq, Repr

/-- handleStatus from main.c: `lastExitStatus != -1` selects the
exit-value report, otherwise the signal report. -/
def handleStatus (st : ShellState) : StatusReport :=
  if st.lastExitStatus ≠ -1 then StatusReport.exitValue st.lastExitStatus
  else StatusReport.terminatedBySignal st.lastTerminalSignal

/-- The foreground-wait update in executeCommand: after
`waitpid(spawnPid, &status, 0)`, a signal-terminated child stores the
signal number and the sentinel `-1`, otherwise `WEXITSTATUS` is stored. -/
def updateStatus (st : ShellState) (raw : Nat) : ShellState :=
  if WIFSIGNALED raw then
    { st with lastTerminalSignal := (WTERMSIG raw : Int), lastExitStatus := -1 }
  else
    { st with lastExitStatus := (WEXITSTATUS raw : Int) }

/-! ### The process launcher: executeCommand

The operating-system outcomes are oracle parameters: the result of
`fork()`, the raw status `waitpid` reports for the child in the foreground
case, and the success of the `open`/`execvp` calls inside the child. -/

/-- The outcome of `fork()`. -/
inductive ForkResult where
  | failure
  | success (childPid : Nat)
deriving DecidableEq, Repr

/-- What the parent side of executeCommand does. `shellExit` means the
interpreter process itself calls `exit` with the given status after
printing the given diagnostic. -/
inductive ExecResult where
  | shellExit (diag : String) (code : Nat)
  | bgLaunched (pid : Nat) (st : ShellState)
  | fgCompleted (st : ShellState)
deriving DecidableEq, Repr

/-- The parent side of executeCommand from main.c.  On fork failure it runs
`perror("fork failed"); exit(1);`.  On success, if the background flag is
set and foreground-only mode is off it prints the child PID and returns
without waiting; otherwise it blocks in waitpid and performs the
foreground status update with the raw status `raw`. -/
def executeCommand (args : List String) (inputFile outputFile : Option String)
    (background : Bool) (fork : ForkResult) (raw : Nat) (st : ShellState) :
    ExecResult :=
  match fork with
  | ForkResult.failure => ExecResult.shellExit "fork failed" 1
  | ForkResult.success childPid =>
    if background && !st.foreground_only_mode then ExecResult.bgLaunched childPid st
    else ExecResult.fgCompleted (updateStatus st raw)

/-! ### The child side of executeCommand -/

/-- Signal names used by the child setup (SIGTSTP, SIGINT). -/
inductive Sig where
  | sigtstp
  | sigint
deriving DecidableEq, Repr

/-- A signal disposition: `SIG_IGN` or `SIG_DFL`. -/
inductive Disp where
  | ign
  | dfl
deriving DecidableEq, Repr

/-- The observable steps the spawned child performs, in order. -/
inductive ChildAction where
  | setSig (sig : Sig) (d : Disp)
  | openRead (f : String)
  | openWrite (f : String)
  | dupStdin
  | dupStdout
  | perrorMsg (m : String)
  | exitChild (code : Nat)
  | execProg (args : List String)
deriving DecidableEq, Repr

/-- `execvp(args[0], args)` and the failure path after it: on success the
program image is replaced and nothing further runs; on failure the child
prints a diagnostic and exits 1. -/
def execPart (args : List String) (execOk : Bool) : List ChildAction :=
  if execOk then [ChildAction.execProg args]
  else [ChildAction.execProg args, ChildAction.perrorMsg "Command execution failed",
        ChildAction.exitChild 1]

/-- The output-redirection block of the child: when `outputFile` is set,
open it `O_WRONLY | O_CREAT | O_TRUNC` mode 0644; on failure print a
diagnostic and exit 1, on success rebind stdout and continue to execvp. -/
def outPart (outputFile : Option String) (args : List String)
    (outOk execOk : Bool) : List ChildAction :=
  match outputFile with
  | none => execPart args execOk
  | some f =>
    ChildAction.openWrite f ::
      (if outOk then ChildAction.dupStdout :: execPart args execOk
       else [ChildAction.perrorMsg "Output redirection failed", ChildAction.exitChild 1])

/-- The full ordered action trace of the child branch of executeCommand:
first `signal(SIGTSTP, SIG_IGN)` and `signal(SIGINT, SIG_DFL)`, then input
redirection, then output redirection, then execvp. -/
def childActions (inputFile outputFile : Option String) (args : List String)
    (inOk outOk execOk : Bool) : List ChildAction :=
  ChildAction.setSig Sig.sigtstp Disp.ign ::
  ChildAction.setSig Sig.sigint Disp.dfl ::
  (match inputFile with
   | none => outPart outputFile args outOk execOk
   | some f =>
     ChildAction.openRead f ::
       (if inOk then ChildAction.dupStdin :: outPart outputFile args outOk execOk
        else [ChildAction.perrorMsg "Input redirection failed", ChildAction.exitChild 1]))

/-- Recognizes the `signal(...)` calls in a child action trace. -/
def isSetSig : ChildAction → Bool
  | ChildAction.setSig _ _ => true
  | _ => false

/-- Recognizes an input-redirection open in a child action trace. -/
def opensInput : ChildAction → Bool
  | ChildAction.openRead _ => true
  | _ => false

/-- Recognizes an output-redirection open in a child action trace. -/
def opensOutput : ChildAction → Bool
  | ChildAction.openWrite _ => true
  | _ => false

/-! ### The signal handlers -/

/-- handle_sigtstp from main.c: toggles `foreground_only_mode` and writes
a fixed notice with `write(STDOUT_FILENO, ...)`. -/
def handle_sigtstp (st : ShellState) : ShellState × String :=
  if st.foreground_only_mode then
    ({ st with foreground_only_mode := false }, "\nExiting foreground-only mode\n")
  else
    ({ st with foreground_only_mode := true },
     "\nEntering foreground-only mode (& is now ignored)\n")

/-- One completion report printed by handle_sigchld. -/
inductive BgReport where
  | bySignal (pid : Nat) (sig : Nat)
  | byExit (pid : Nat) (code : Nat)
deriving DecidableEq, Repr

/-- handle_sigchld from main.c.  The pending list models the terminated
children the OS has queued: each loop iteration is one
`waitpid(-1, &status, WNOHANG)` call, which pops the next terminated child
or returns without blocking when none is left.  The result is the list of
printed reports, the shell globals after the handler, and the pending
terminations still unreaped when the loop exits. -/
def handle_sigchld (st : ShellState) :
    List (Nat × Nat) → List BgReport × ShellState × List (Nat × Nat)
  | [] => ([], st, [])
  | z :: rest =>
    let prev := handle_sigchld st rest
    ((if WIFSIGNALED z.2 then BgReport.bySignal z.1 (WTERMSIG z.2)
      else BgReport.byExit z.1 (WEXITSTATUS z.2)) :: prev.1,
     prev.2.1, prev.2.2)

/-- The report handle_sigchld prints for one reaped child. -/
def reportOf (z : Nat × Nat) : BgReport :=
  if WIFSIGNALED z.2 then BgReport.bySignal z.1 (WTERMSIG z.2)
  else BgReport.byExit z.1 (WEXITSTATUS z.2)

/-! ### Events that can touch the shell globals

The main flow and the two asynchronous handlers are the only writers of
the three globals.  An event is one occurrence of any of them. -/

/-- The four state-touching occurrences: a foreground wait completing with
raw status `raw`, a background launch, a SIGCHLD handler invocation with
the given pending terminations, and a SIGTSTP handler invocation. -/
inductive Event where
  | fgWait (raw : Nat)
  | bgLaunch (pid : Nat)
  | sigchld (pending : List (Nat × Nat))
  | sigtstp
deriving DecidableEq, Repr

/-- The effect of one event on the shell globals, as implemented: only the
foreground wait of executeCommand writes the status slots. -/
def stepStatus (st : ShellState) : Event → ShellState
  | Event.fgWait raw => updateStatus st raw
  | Event.bgLaunch _ => st
  | Event.sigchld pending => (handle_sigchld st pending).2.1
  | Event.sigtstp => (handle_sigtstp st).1

/-- Ghost summary of the most recent foreground completion. -/
inductive FgTag where
  | noneYet
  | exited (code : Nat)
  | signaled (sig : Nat)
deriving DecidableEq, Repr

/-- The reachable values of the shell globals, paired with the ghost
summary of the last foreground completion: the initial globals, then any
interleaving of foreground waits, SIGTSTP toggles, and SIGCHLD handler
runs. -/
inductive Reach : ShellState → FgTag → Prop
  | init : Reach initialState FgTag.noneYet
  | fgWait (st : ShellState) (tag : FgTag) (raw : Nat) : Reach st tag →
      Reach (updateStatus st raw)
        (if WIFSIGNALED raw then FgTag.signaled (WTERMSIG raw)
         else FgTag.exited (WEXITSTATUS raw))
  | toggle (st : ShellState) (tag : FgTag) : Reach st tag →
      Reach (handle_sigtstp st).1 tag
  | reap (st : ShellState) (tag : FgTag) (pending : List (Nat × Nat)) :
      Reach st tag → Reach (handle_sigchld st pending).2.1 tag

/-! ### Helper lemmas about the parser -/

/-- Each stored token adds one slot: the argument vector the scan produces
has exactly `wordCount` entries beyond what it started with. -/
theorem parseLoop_args_len (mode : Bool) (pid : String) :
    ∀ (ts : List String) (st : ParseState),
      ((parseLoop mode pid ts st).args).length = st.args.length + wordCount ts
  | [], st => by simp [parseLoop, wordCount]
  | t :: rest, st => by
    by_cases h1 : t = "<"
    · have ih := parseLoop_args_len mode pid rest.tail
        { st with inputFile := rest.head? }
      simp [parseLoop, wordCount, h1, ih]
    · by_cases h2 : t = ">"
      · have ih := parseLoop_args_len mode pid rest.tail
          { st with outputFile := rest.head? }
        simp [parseLoop, wordCount, h1, h2, ih]
      · by_cases h3 : t = "&"
        · cases mode with
          | true =>
            have ih := parseLoop_args_len true pid rest st
            simp [parseLoop, wordCount, h1, h2, h3, ih]
          | false =>
            have ih := parseLoop_args_len false pid rest
              { st with background := true }
            simp [parseLoop, wordCount, h1, h2, h3, ih]
        · have ih := parseLoop_args_len mode pid rest
            { st with args := st.args ++ [procToken pid t] }
          simp [parseLoop, wordCount, h1, h2, h3, ih]
          omega
termination_by ts => ts.length
decreasing_by
  all_goals simp only [List.length_cons, List.length_tail]
  all_goals omega

/-- Once the background flag is set it is never cleared by the scan. -/
theorem parseLoop_bg_mono (mode : Bool) (pid : String) :
    ∀ (ts : List String) (st : ParseState), st.background = true →
      (parseLoop mode pid ts st).background = true
  | [], st => by simp [parseLoop]
  | t :: rest, st => by
    intro hbg
    by_cases h1 : t = "<"
    · have ih := parseLoop_bg_mono mode pid rest.tail
        { st with inputFile := rest.head? } hbg
      simp [parseLoop, h1, ih]
    · by_cases h2 : t = ">"
      · have ih := parseLoop_bg_mono mode pid rest.tail
          { st with outputFile := rest.head? } hbg
        simp [parseLoop, h1, h2, ih]
      · by_cases h3 : t = "&"
        · cases mode with
          | true =>
            have ih := parseLoop_bg_mono true pid rest st hbg
            simp [parseLoop, h1, h2, h3, ih]
          | false =>
            have ih := parseLoop_bg_mono false pid rest
              { st with background := true } rfl
            simp [parseLoop, h1, h2, h3, ih]
        · have ih := parseLoop_bg_mono mode pid rest
            { st with args := st.args ++ [procToken pid t] } hbg
          simp [parseLoop, h1, h2, h3, ih]
termination_by ts => ts.length
decreasing_by
  all_goals simp only [List.length_cons, List.length_tail]
  all_goals omega

/-- With foreground-only mode active the scan never changes the background
flag: the `&` branch is a no-op. -/
theorem parseLoop_mode_on_bg (pid : String) :
    ∀ (ts : List String) (st : ParseState),
      (parseLoop true pid ts st).background = st.background
  | [], st => by simp [parseLoop]
  | t :: rest, st => by
    by_cases h1 : t = "<"
    · have ih := parseLoop_mode_on_bg pid rest.tail
        { st with inputFile := rest.head? }
      simp [parseLoop, h1, ih]
    · by_cases h2 : t = ">"
      · have ih := parseLoop_mode_on_bg pid rest.tail
          { st with outputFile := rest.head? }
        simp [parseLoop, h1, h2, ih]
      · by_cases h3 : t = "&"
        · have ih := parseLoop_mode_on_bg pid rest st
          simp [parseLoop, h1, h2, h3, ih]
        · have ih := parseLoop_mode_on_bg pid rest
            { st with args := st.args ++ [procToken pid t] }
          simp [parseLoop, h1, h2, h3, ih]
termination_by ts => ts.length
decreasing_by
  all_goals simp only [List.length_cons, List.length_tail]
  all_goals omega

/-- With foreground-only mode off, a scanned `&` token sets the background
flag.  The hypotheses that no `<` or `>` occurs keep every `&` a scanned
token rather than a consumed redirection path. -/
theorem parseLoop_amp_sets (pid : String) :
    ∀ (ts : List String) (st : ParseState), "&" ∈ ts → "<" ∉ ts → ">" ∉ ts →
      (parseLoop false pid ts st).background = true
  | [], st => by simp
  | t :: rest, st => by
    intro hmem hlt hgt
    have h1 : t ≠ "<" := fun h => hlt (by simp [h])
    have h2 : t ≠ ">" := fun h => hgt (by simp [h])
    by_cases h3 : t = "&"
    · have ih := parseLoop_bg_mono false pid rest
        { st with background := true } rfl
      simp [parseLoop, h1, h2, h3, ih]
    · have hmem2 : "&" ∈ rest := by
        rcases List.mem_cons.mp hmem with h | h
        · exact absurd h.symm h3
        · exact h
      have ih := parseLoop_amp_sets pid rest
        { st with args := st.args ++ [procToken pid t] } hmem2
        (fun h => hlt (List.mem_cons_of_mem _ h))
        (fun h => hgt (List.mem_cons_of_mem _ h))
      simp [parseLoop, h1, h2, h3, ih]

/-- A dangling `<` scanned as the last token stores the NULL that
`strtok(NULL, " ")` returns: the input path ends up absent. -/
theorem parseLoop_trailing_lt (mode : Bool) (pid : String) :
    ∀ (pre : List String) (st : ParseState), "<" ∉ pre → ">" ∉ pre →
      (parseLoop mode pid (pre ++ ["<"]) st).inputFile = none
  | [], st => by intro hlt hgt; simp [parseLoop]
  | t :: pre, st => by
    intro hlt hgt
    have h1 : t ≠ "<" := fun h => hlt (by simp [h])
    have h2 : t ≠ ">" := fun h => hgt (by simp [h])
    have hlt2 : "<" ∉ pre := fun h => hlt (List.mem_cons_of_mem _ h)
    have hgt2 : ">" ∉ pre := fun h => hgt (List.mem_cons_of_mem _ h)
    by_cases h3 : t = "&"
    · cases mode with
      | true =>
        have ih := parseLoop_trailing_lt true pid pre st hlt2 hgt2
        simp [parseLoop, h1, h2, h3, ih]
      | false =>
        have ih := parseLoop_trailing_lt false pid pre
          { st with background := true } hlt2 hgt2
        simp [parseLoop, h1, h2, h3, ih]
    · have ih := parseLoop_trailing_lt mode pid pre
        { st with args := st.args ++ [procToken pid t] } hlt2 hgt2
      simp [parseLoop, h1, h2, h3, ih]

/-- A dangling `>` scanned as the last token leaves the output path
absent, symmetrically. -/
theorem parseLoop_trailing_gt (mode : Bool) (pid : String) :
    ∀ (pre : List String) (st : ParseState), "<" ∉ pre → ">" ∉ pre →
      (parseLoop mode pid (pre ++ [">"]) st).outputFile = none
  | [], st => by intro hlt hgt; simp [parseLoop]
  | t :: pre, st => by
    intro hlt hgt
    have h1 : t ≠ "<" := fun h => hlt (by simp [h])
    have h2 : t ≠ ">" := fun h => hgt (by simp [h])
    have hlt2 : "<" ∉ pre := fun h => hlt (List.mem_cons_of_mem _ h)
    have hgt2 : ">" ∉ pre := fun h => hgt (List.mem_cons_of_mem _ h)
    by_cases h3 : t = "&"
    · cases mode with
      | true =>
        have ih := parseLoop_trailing_gt true pid pre st hlt2 hgt2
        simp [parseLoop, h1, h2, h3, ih]
      | false =>
        have ih := parseLoop_trailing_gt false pid pre
          { st with background := true } hlt2 hgt2
        simp [parseLoop, h1, h2, h3, ih]
    · have ih := parseLoop_trailing_gt mode pid pre
        { st with args := st.args ++ [procToken pid t] } hlt2 hgt2
      simp [parseLoop, h1, h2, h3, ih]

/-! ### Helper lemmas about the child trace and the reaper -/

/-- After the two `signal(...)` calls, no further action of the child
trace is a signal call. -/
theorem childActions_tail_no_setSig (inputFile outputFile : Option String)
    (args : List String) (inOk outOk execOk : Bool) :
    (((childActions inputFile outputFile args inOk outOk execOk).drop 2).all
      fun a => !isSetSig a) = true := by
  cases inputFile <;> cases outputFile <;> cases inOk <;> cases outOk <;>
    cases execOk <;> simp [childActions, outPart, execPart, isSetSig]

/-- Without an input path the child never opens a file for reading. -/
theorem childActions_no_inputOpen (outputFile : Option String)
    (args : List String) (inOk outOk execOk : Bool) :
    ((childActions none outputFile args inOk outOk execOk).all
      fun a => !opensInput a) = true := by
  cases outputFile <;> cases outOk <;> cases execOk <;>
    simp [childActions, outPart, execPart, opensInput]

/-- Without an output path the child never opens a file for writing. -/
theorem childActions_no_outputOpen (inputFile : Option String)
    (args : List String) (inOk outOk execOk : Bool) :
    ((childActions inputFile none args inOk outOk execOk).all
      fun a => !opensOutput a) = true := by
  cases inputFile <;> cases inOk <;> cases execOk <;>
    simp [childActions, outPart, execPart, opensOutput]

/-- The reaper loop leaves the shell globals untouched and drains every
pending termination, printing one report per reaped child. -/
theorem handle_sigchld_spec (st : ShellState) :
    ∀ pending : List (Nat × Nat),
      (handle_sigchld st pending).2.1 = st ∧
      (handle_sigchld st pending).2.2 = [] ∧
      (handle_sigchld st pending).1 = pending.map reportOf
  | [] => by simp [handle_sigchld]
  | z :: rest => by
    have ih := handle_sigchld_spec st rest
    simp [handle_sigchld, ih.1, ih.2.1, ih.2.2, reportOf]

/-- Invariant tying the status slots to the ghost summary of the most
recent foreground completion. -/
def statusInv (st : ShellState) (tag : FgTag) : Prop :=
  match tag with
  | FgTag.noneYet => st.lastExitStatus = 0
  | FgTag.exited c => st.lastExitStatus = (c : Int) ∧ c ≤ 255
  | FgTag.signaled s => st.lastExitStatus = -1 ∧ st.lastTerminalSignal = (s : Int)

/-- Every reachable configuration satisfies the status invariant. -/
theorem reach_statusInv :
    ∀ (st : ShellState) (tag : FgTag), Reach st tag → statusInv st tag := by
  intro st tag h
  induction h with
  | init => simp [statusInv, initialState]
  | fgWait st tag raw hr ih =>
    cases hs : WIFSIGNALED raw with
    | true => simp [statusInv, updateStatus, hs]
    | false =>
      simp only [hs, Bool.false_eq_true, if_false]
      refine ⟨?_, ?_⟩
      · simp [updateStatus, hs]
      · simp only [WEXITSTATUS]
        omega
  | toggle st tag hr ih =>
    have h1 : ((handle_sigtstp st).1).lastExitStatus = st.lastExitStatus := by
      by_cases hm : st.foreground_only_mode <;> simp [handle_sigtstp, hm]
    have h2 : ((handle_sigtstp st).1).lastTerminalSignal = st.lastTerminalSignal := by
      by_cases hm : st.foreground_only_mode <;> simp [handle_sigtstp, hm]
    cases tag with
    | noneYet => simpa [statusInv, h1] using ih
    | exited c => exact ⟨by rw [h1]; exact ih.1, ih.2⟩
    | signaled s => exact ⟨by rw [h1]; exact ih.1, by rw [h2]; exact ih.2⟩
  | reap st tag pending hr ih =>
    have hspec := handle_sigchld_spec st pending
    rw [hspec.1]
    exact ih

/-- C1: evaluation of expandShellID at the failing input.  For the token
`a$$b` and a 3-digit PID `123`, the code returns `a123` (length 4): the
suffix `b` after the last marker is dropped, while the claimed length is
`4 + 1 * (3 - 2) = 5` and the claimed output preserves the suffix. -/
theorem c1_suffix_dropped :
    expandShellID "123" "a$$b" = "a123" ∧
    (expandShellID "123" "a$$b").length = 4 ∧
    dollarCount "a$$b".data = 1 ∧
    "a$$b".length + dollarCount "a$$b".data * ("123".length - 2) = 5 := by
  refine ⟨?_, ?_, ?_, ?_⟩ <;>
    simp [expandShellID, expandLoop, dollarCount, splitAtMarker, String.length]

/-- C2 counterexample: when fork fails, the interpreter does not continue.
At a concrete input, executeCommand reaches `perror("fork failed");
exit(1);`, terminating the interpreter itself with the nonzero status 1. -/
theorem c2_fork_failure_exits :
    executeCommand ["ls"] none none false ForkResult.failure 0 initialState =
      ExecResult.shellExit "fork failed" 1 ∧ (1 : Nat) ≠ 0 :=
  ⟨rfl, by decide⟩

/-- C2 amended: if creating the new execution context fails, the failure is
reported via the short diagnostic `fork failed` and the requested command
does not run, but the interpreter does not continue: it terminates
immediately with exit status 1, regardless of the parsed command and the
current state. -/
theorem c2_fork_failure_amended (args : List String)
    (inputFile outputFile : Option String) (background : Bool) (raw : Nat)
    (st : ShellState) :
    executeCommand args inputFile outputFile background ForkResult.failure raw st =
      ExecResult.shellExit "fork failed" 1 := rfl

/-- wordCount of a run of plain one-letter words. -/
theorem wordCount_replicate_a (n : Nat) : wordCount (List.replicate n "a") = n := by
  induction n with
  | zero => simp [wordCount]
  | succ k ih =>
    have h1 : ("a" : String) ≠ "<" := by decide
    have h2 : ("a" : String) ≠ ">" := by decide
    have h3 : ("a" : String) ≠ "&" := by decide
    simp [List.replicate_succ, wordCount, h1, h2, h3, ih]

/-- C3 counterexample.  First: a line of 512 one-character words — which
fits the 2048-byte input buffer (512 characters plus 511 separating spaces
plus the terminator is 1024 bytes) — makes parseInput write the NULL
sentinel at index 512 of the 512-slot argument array, out of bounds.
Second: the line `&` parses to an empty argument vector, and handleCommand
then dereferences the NULL sentinel (`strcmp(args[0], "exit")`), which is
undefined behavior, modelled by `none`. -/
theorem c3_overflow_and_null_argv :
    ¬ parseWritesInBounds false "12345" (List.replicate 512 "a") ∧
    ((List.replicate 512 "a").map String.length).sum +
      ((List.replicate 512 "a").length - 1) + 1 ≤ MAX_INPUT_SIZE ∧
    handleCommand false "12345" ["&"] = none := by
  refine ⟨?_, ?_, ?_⟩
  · rw [parseWritesInBounds, parseInput, parseLoop_args_len, wordCount_replicate_a]
    simp [MAX_ARG_SIZE]
  · have hl : ("a" : String).length = 1 := rfl
    rw [List.map_replicate, hl, List.sum_replicate, List.length_replicate,
      smul_eq_mul]
    simp only [MAX_INPUT_SIZE]
    omega
  · have h1 : ("&" : String) ≠ "<" := by decide
    have h2 : ("&" : String) ≠ ">" := by decide
    simp [handleCommand, parseInput, parseLoop, h1, h2]

/-- C3 amended: parsing never fails, but it is free of out-of-bounds
writes only for lines whose scan stores at most 511 argument tokens (one
slot is reserved for the NULL sentinel); and handleCommand handles every
parsed result whose argument vector is nonempty, while an input line whose
tokens are all consumed as redirection or background markers leaves an
empty argument vector on which handleCommand dereferences NULL. -/
theorem c3_bounded_dispatch_safe (mode : Bool) (pid : String)
    (tokens : List String) :
    (wordCount tokens + 1 ≤ MAX_ARG_SIZE → parseWritesInBounds mode pid tokens) ∧
    ((parseInput mode pid tokens).args ≠ [] →
      ∃ a, handleCommand mode pid tokens = some a) := by
  constructor
  · intro h
    rw [parseWritesInBounds, parseInput, parseLoop_args_len]
    simpa using h
  · intro h
    cases hargs : (parseInput mode pid tokens).args with
    | nil => exact absurd hargs h
    | cons a0 rest =>
      refine ⟨?_, ?_⟩
      · exact (if a0 = "exit" then Action.runExit
          else if a0 = "cd" then Action.runCd (parseInput mode pid tokens).args
          else if a0 = "status" then Action.runStatus
          else Action.runExternal (parseInput mode pid tokens).args
            (parseInput mode pid tokens).inputFile
            (parseInput mode pid tokens).outputFile
            (parseInput mode pid tokens).background)
      · simp only [handleCommand, hargs]

/-- Witness for the amended C3 theorem at the concrete line `ls`. -/
theorem c3_bounded_dispatch_safe_witness :
    parseWritesInBounds false "7" ["ls"] ∧
    ∃ a, handleCommand false "7" ["ls"] = some a := by
  have hwc : wordCount ["ls"] + 1 ≤ MAX_ARG_SIZE := by
    have h1 : ("ls" : String) ≠ "<" := by decide
    have h2 : ("ls" : String) ≠ ">" := by decide
    have h3 : ("ls" : String) ≠ "&" := by decide
    simp [wordCount, h1, h2, h3, MAX_ARG_SIZE]
  have hargs : (parseInput false "7" ["ls"]).args ≠ [] := by
    have h1 : ("ls" : String) ≠ "<" := by decide
    have h2 : ("ls" : String) ≠ ">" := by decide
    have h3 : ("ls" : String) ≠ "&" := by decide
    simp [parseInput, parseLoop, h1, h2, h3]
  exact ⟨(c3_bounded_dispatch_safe false "7" ["ls"]).1 hwc,
         (c3_bounded_dispatch_safe false "7" ["ls"]).2 hargs⟩

/-- C4: while foreground-only mode is active a `&` token is silently
ignored — the background flag stays false and the launcher runs the
command in the foreground, updating the foreground status and reporting no
background PID — and with the mode off a scanned `&` token sets the flag
and the launcher reports the child PID and does not wait.  The `<`/`>`
exclusions keep the `&` a scanned token rather than a consumed redirection
path. -/
theorem c4_foreground_only_toggle (pid : String) (tokens args : List String)
    (inputFile outputFile : Option String) (childPid raw : Nat)
    (stOn stOff : ShellState)
    (hOn : stOn.foreground_only_mode = true)
    (hOff : stOff.foreground_only_mode = false)
    (hAmp : "&" ∈ tokens) (hLt : "<" ∉ tokens) (hGt : ">" ∉ tokens) :
    (parseInput true pid tokens).background = false ∧
    executeCommand args inputFile outputFile
        (parseInput true pid tokens).background
        (ForkResult.success childPid) raw stOn =
      ExecResult.fgCompleted (updateStatus stOn raw) ∧
    (parseInput false pid tokens).background = true ∧
    executeCommand args inputFile outputFile
        (parseInput false pid tokens).background
        (ForkResult.success childPid) raw stOff =
      ExecResult.bgLaunched childPid stOff := by
  have hbg0 : (parseInput true pid tokens).background = false := by
    rw [parseInput, parseLoop_mode_on_bg]
  have hbg1 : (parseInput false pid tokens).background = true :=
    parseLoop_amp_sets pid tokens ⟨[], none, none, false⟩ hAmp hLt hGt
  refine ⟨hbg0, ?_, hbg1, ?_⟩
  · rw [hbg0]
    simp [executeCommand]
  · rw [hbg1]
    simp [executeCommand, hOff]

/-- Witness for C4 at the concrete line `ls &`, with the mode-on state
`⟨0, 0, true⟩` and the mode-off initial state. -/
theorem c4_foreground_only_toggle_witness :
    (parseInput true "5" ["ls", "&"]).background = false ∧
    executeCommand ["ls"] none none (parseInput true "5" ["ls", "&"]).background
        (ForkResult.success 77) 0 ⟨0, 0, true⟩ =
      ExecResult.fgCompleted (updateStatus ⟨0, 0, true⟩ 0) ∧
    (parseInput false "5" ["ls", "&"]).background = true ∧
    executeCommand ["ls"] none none (parseInput false "5" ["ls", "&"]).background
        (ForkResult.success 77) 0 initialState =
      ExecResult.bgLaunched 77 initialState :=
  c4_foreground_only_toggle "5" ["ls", "&"] ["ls"] none none 77 0
    ⟨0, 0, true⟩ initialState rfl rfl (by decide) (by decide) (by decide)

/-- C5: the status built-in reports exactly the most recent foreground
outcome — exit value 0 before any foreground command has completed, exit
value k after a foreground child that exited normally with code k, and
termination by signal s after a foreground child killed by signal s. -/
theorem c5_status_reports :
    handleStatus initialState = StatusReport.exitValue 0 ∧
    (∀ (st : ShellState) (raw k : Nat), WIFEXITED raw = true →
      WEXITSTATUS raw = k →
      handleStatus (updateStatus st raw) = StatusReport.exitValue (k : Int)) ∧
    (∀ (st : ShellState) (raw s : Nat), WIFSIGNALED raw = true →
      WTERMSIG raw = s →
      handleStatus (updateStatus st raw) =
        StatusReport.terminatedBySignal (s : Int)) := by
  refine ⟨by simp [handleStatus, initialState], ?_, ?_⟩
  · intro st raw k hex hk
    have hmod : raw % 128 = 0 := by
      simpa [WIFEXITED] using hex
    have hsig : WIFSIGNALED raw = false := by
      simp only [WIFSIGNALED, decide_eq_false_iff_not]
      omega
    have hkne : (k : Int) ≠ -1 := by omega
    simp [updateStatus, hsig, handleStatus, hk, hkne]
  · intro st raw s hsig hs
    simp [updateStatus, hsig, handleStatus, hs]

/-- Witness for C5: raw status 1792 is a normal exit with code 7, raw
status 9 is termination by signal 9. -/
theorem c5_status_reports_witness :
    handleStatus initialState = StatusReport.exitValue 0 ∧
    handleStatus (updateStatus initialState 1792) =
      StatusReport.exitValue (7 : Int) ∧
    handleStatus (updateStatus initialState 9) =
      StatusReport.terminatedBySignal (9 : Int) :=
  ⟨c5_status_reports.1,
   c5_status_reports.2.1 initialState 1792 7 (by decide) (by decide),
   c5_status_reports.2.2 initialState 9 9 (by decide) (by decide)⟩

/-- C6: the reaper never touches the shell globals, and among all the
events that can run — a foreground wait, a background launch, a SIGCHLD
handler invocation, a SIGTSTP handler invocation — only the foreground
wait can change the Execution Status slots. -/
theorem c6_status_isolation :
    (∀ (st : ShellState) (pending : List (Nat × Nat)),
      (handle_sigchld st pending).2.1 = st) ∧
    (∀ (st : ShellState) (e : Event),
      ((stepStatus st e).lastExitStatus = st.lastExitStatus ∧
       (stepStatus st e).lastTerminalSignal = st.lastTerminalSignal) ∨
      ∃ raw, e = Event.fgWait raw) := by
  constructor
  · intro st pending
    exact (handle_sigchld_spec st pending).1
  · intro st e
    cases e with
    | fgWait raw => exact Or.inr ⟨raw, rfl⟩
    | bgLaunch p => exact Or.inl ⟨rfl, rfl⟩
    | sigchld pending =>
      exact Or.inl (by simp [stepStatus, (handle_sigchld_spec st pending).1])
    | sigtstp =>
      refine Or.inl ?_
      constructor <;> by_cases hm : st.foreground_only_mode <;>
        simp [stepStatus, handle_sigtstp, hm]

/-- C7: a dangling `<` (respectively `>`) as the final scanned token
leaves the corresponding redirection path absent — parsing succeeds with
no error — and a child launched without that path never opens the
corresponding redirection file. -/
theorem c7_dangling_redirect (mode : Bool) (pid : String) (pre : List String)
    (hLt : "<" ∉ pre) (hGt : ">" ∉ pre) :
    (parseInput mode pid (pre ++ ["<"])).inputFile = none ∧
    (parseInput mode pid (pre ++ [">"])).outputFile = none ∧
    (∀ (outputFile : Option String) (args : List String) (inOk outOk execOk : Bool),
      ((childActions none outputFile args inOk outOk execOk).all
        fun a => !opensInput a) = true) ∧
    (∀ (inputFile : Option String) (args : List String) (inOk outOk execOk : Bool),
      ((childActions inputFile none args inOk outOk execOk).all
        fun a => !opensOutput a) = true) :=
  ⟨parseLoop_trailing_lt mode pid pre ⟨[], none, none, false⟩ hLt hGt,
   parseLoop_trailing_gt mode pid pre ⟨[], none, none, false⟩ hLt hGt,
   fun oF args iOk oOk eOk => childActions_no_inputOpen oF args iOk oOk eOk,
   fun iF args iOk oOk eOk => childActions_no_outputOpen iF args iOk oOk eOk⟩

/-- Witness for C7 at the concrete lines `ls <` and `ls >`. -/
theorem c7_dangling_redirect_witness :
    (parseInput false "3" (["ls"] ++ ["<"])).inputFile = none ∧
    (parseInput false "3" (["ls"] ++ [">"])).outputFile = none ∧
    ((childActions none (some "o") ["ls"] true true true).all
      fun a => !opensInput a) = true ∧
    ((childActions (some "i") none ["ls"] true true true).all
      fun a => !opensOutput a) = true :=
  have h := c7_dangling_redirect false "3" ["ls"] (by decide) (by decide)
  ⟨h.1, h.2.1, h.2.2.1 (some "o") ["ls"] true true true,
   h.2.2.2 (some "i") ["ls"] true true true⟩

/-- C8: on every invocation the reaper's non-blocking loop drains all
currently terminated children — when the loop exits, no pending
termination is left — and prints exactly one report per reaped child: PID
and signal number for a signal-terminated child, PID and exit code
otherwise (`reportOf`). -/
theorem c8_reaper_drains (st : ShellState) (pending : List (Nat × Nat)) :
    (handle_sigchld st pending).1 = pending.map reportOf ∧
    (handle_sigchld st pending).2.2 = [] :=
  ⟨(handle_sigchld_spec st pending).2.2, (handle_sigchld_spec st pending).2.1⟩

/-- C9: in every spawned child, whatever the redirections, arguments and
OS outcomes, the first two actions — before any redirection or program
replacement — set the SIGTSTP disposition to ignore and reset the SIGINT
disposition to its default, and no later action of the child is a signal
call. -/
theorem c9_child_signal_setup (inputFile outputFile : Option String)
    (args : List String) (inOk outOk execOk : Bool) :
    (childActions inputFile outputFile args inOk outOk execOk).take 2 =
      [ChildAction.setSig Sig.sigtstp Disp.ign,
       ChildAction.setSig Sig.sigint Disp.dfl] ∧
    (((childActions inputFile outputFile args inOk outOk execOk).drop 2).all
      fun a => !isSetSig a) = true :=
  ⟨rfl, childActions_tail_no_setSig inputFile outputFile args inOk outOk execOk⟩

/-- C10: in every reachable state, a normal foreground exit stores an exit
code between 0 and 255 (never the sentinel -1), the exit-status slot holds
-1 exactly when the most recent foreground command was signal-terminated,
and the status built-in's test against -1 therefore discriminates
correctly: it reports exit value 0 before any foreground completion, exit
value c after a normal exit with code c, and the signal number after a
signal termination. -/
theorem c10_sentinel (st : ShellState) (tag : FgTag) (hr : Reach st tag) :
    ((∃ c, tag = FgTag.exited c) →
      0 ≤ st.lastExitStatus ∧ st.lastExitStatus ≤ 255) ∧
    (st.lastExitStatus = -1 ↔ ∃ s, tag = FgTag.signaled s) ∧
    (tag = FgTag.noneYet → handleStatus st = StatusReport.exitValue 0) ∧
    (∀ c, tag = FgTag.exited c →
      handleStatus st = StatusReport.exitValue (c : Int)) ∧
    (∀ s, tag = FgTag.signaled s →
      handleStatus st = StatusReport.terminatedBySignal (s : Int)) := by
  have hinv := reach_statusInv st tag hr
  cases tag with
  | noneYet =>
    simp only [statusInv] at hinv
    refine ⟨?_, ?_, ?_, ?_, ?_⟩
    · rintro ⟨c, hc⟩
      simp at hc
    · constructor
      · intro h
        rw [hinv] at h
        exact absurd h (by decide)
      · rintro ⟨s, hs⟩
        simp at hs
    · intro _
      simp [handleStatus, hinv]
    · intro c hc
      simp at hc
    · intro s hs
      simp at hs
  | exited c =>
    simp only [statusInv] at hinv
    obtain ⟨h1, h2⟩ := hinv
    refine ⟨?_, ?_, ?_, ?_, ?_⟩
    · intro _
      constructor <;> rw [h1] <;> omega
    · constructor
      · intro h
        rw [h1] at h
        exact absurd h (by omega)
      · rintro ⟨s, hs⟩
        simp at hs
    · intro h
      simp at h
    · intro c0 hc
      cases hc
      have hne : (c : Int) ≠ -1 := by omega
      simp [handleStatus, h1, hne]
    · intro s hs
      simp at hs
  | signaled s =>
    simp only [statusInv] at hinv
    obtain ⟨h1, h2⟩ := hinv
    refine ⟨?_, ?_, ?_, ?_, ?_⟩
    · rintro ⟨c, hc⟩
      simp at hc
    · constructor
      · intro _
        exact ⟨s, rfl⟩
      · intro _
        exact h1
    · intro h
      simp at h
    · intro c hc
      simp at hc
    · intro s0 hs
      cases hs
      simp [handleStatus, h1, h2]

/-- Witness for C10 at the initial reachable state. -/
theorem c10_sentinel_witness :
    handleStatus initialState = StatusReport.exitValue 0 ∧
    (initialState.lastExitStatus = -1 ↔ ∃ s, FgTag.noneYet = FgTag.signaled s) :=
  have h := c10_sentinel initialState FgTag.noneYet Reach.init
  ⟨h.2.2.1 rfl, h.2.1⟩

end Smallsh
